import Mathlib

/-!
Verification of the PyChain ledger core (`pychain.py`): the `Record` / `Block` /
`PyChain` data model, SHA-256 content hashing, proof-of-work mining, block
appending and chain validation.  The Python source is shallowly embedded:
pure methods become Lean functions, the unbounded mining loop becomes a
fuel-indexed function returning `Option`, and the partial `is_valid` (which
indexes `chain[0]` unconditionally) returns `Option Bool`, `none` marking the
out-of-bounds access.  SHA-256 itself (Python's `hashlib.sha256`) is
implemented concretely over `Nat` so that digests are computable by the kernel.
-/

set_option maxRecDepth 100000
set_option maxHeartbeats 4000000

namespace PySpec

/-! ### SHA-256 over byte lists (model of `hashlib.sha256(...).hexdigest()`) -/

/-- Truncation to a 32-bit word. -/
def w32 (n : Nat) : Nat := n % 4294967296

/-- Right rotation of a 32-bit word by `n` places. -/
def rotRight32 (n x : Nat) : Nat := w32 ((x >>> n) ||| (x <<< (32 - n)))

/-- Bitwise complement of a 32-bit word. -/
def compl32 (x : Nat) : Nat := x ^^^ 4294967295

def chooseF (x y z : Nat) : Nat := (x &&& y) ^^^ (compl32 x &&& z)

def majorityF (x y z : Nat) : Nat := (x &&& y) ^^^ (x &&& z) ^^^ (y &&& z)

def upperSigma0 (x : Nat) : Nat := rotRight32 2 x ^^^ rotRight32 13 x ^^^ rotRight32 22 x

def upperSigma1 (x : Nat) : Nat := rotRight32 6 x ^^^ rotRight32 11 x ^^^ rotRight32 25 x

def lowerSigma0 (x : Nat) : Nat := rotRight32 7 x ^^^ rotRight32 18 x ^^^ (x >>> 3)

def lowerSigma1 (x : Nat) : Nat := rotRight32 17 x ^^^ rotRight32 19 x ^^^ (x >>> 10)

/-- The 64 SHA-256 round constants (FIPS 180-4, written in decimal). -/
def K : List Nat :=
  [1116352408, 1899447441, 3049323471, 3921009573, 961987163,
   1508970993, 2453635748, 2870763221, 3624381080, 310598401,
   607225278, 1426881987, 1925078388, 2162078206, 2614888103,
   3248222580, 3835390401, 4022224774, 264347078, 604807628,
   770255983, 1249150122, 1555081692, 1996064986, 2554220882,
   2821834349, 2952996808, 3210313671, 3336571891, 3584528711,
   113926993, 338241895, 666307205, 773529912, 1294757372,
   1396182291, 1695183700, 1986661051, 2177026350, 2456956037,
   2730485921, 2820302411, 3259730800, 3345764771, 3516065817,
   3600352804, 4094571909, 275423344, 430227734, 506948616,
   659060556, 883997877, 958139571, 1322822218, 1537002063,
   1747873779, 1955562222, 2024104815, 2227730452, 2361852424,
   2428436474, 2756734187, 3204031479, 3329325298]

/-- The eight 32-bit words of SHA-256 working state. -/
structure H8 where
  a : Nat
  b : Nat
  c : Nat
  d : Nat
  e : Nat
  f : Nat
  g : Nat
  h : Nat
deriving DecidableEq

/-- SHA-256 initial hash value (FIPS 180-4, written in decimal). -/
def initH : H8 :=
  ⟨1779033703, 3144134277, 1013904242,
   2773480762, 1359893119, 2600822924,
   528734635, 1541459225⟩

/-- One group of SHA-256 compression rounds, consuming round constants and
message-schedule words in lockstep. -/
def rounds : List Nat → List Nat → H8 → H8
  | k :: ks, wv :: ws, st =>
    let t1 := w32 (st.h + upperSigma1 st.e + chooseF st.e st.f st.g + k + wv)
    let t2 := w32 (upperSigma0 st.a + majorityF st.a st.b st.c)
    rounds ks ws ⟨w32 (t1 + t2), st.a, st.b, st.c, w32 (st.d + t1), st.e, st.f, st.g⟩
  | _, _, st => st

/-- Extend the 16-word message block to the 64-word schedule. -/
def extendW : Nat → List Nat → List Nat
  | 0, w => w
  | n + 1, w =>
    let t := w.length
    let x := w32 (lowerSigma1 (w.getD (t - 2) 0) + w.getD (t - 7) 0 +
                  lowerSigma0 (w.getD (t - 15) 0) + w.getD (t - 16) 0)
    extendW n (w ++ [x])

/-- Group bytes into big-endian 32-bit words. -/
def bytesToWords : List Nat → List Nat
  | b1 :: b2 :: b3 :: b4 :: rest =>
    (((b1 * 256 + b2) * 256 + b3) * 256 + b4) :: bytesToWords rest
  | _ => []

/-- Compress one 64-byte chunk into the running hash state. -/
def compress (st : H8) (chunk : List Nat) : H8 :=
  let r := rounds K (extendW 48 (bytesToWords chunk)) st
  ⟨w32 (st.a + r.a), w32 (st.b + r.b), w32 (st.c + r.c), w32 (st.d + r.d),
   w32 (st.e + r.e), w32 (st.f + r.f), w32 (st.g + r.g), w32 (st.h + r.h)⟩

/-- Big-endian byte expansion of `n` to `k` bytes. -/
def toBytesBE : Nat → Nat → List Nat
  | 0, _ => []
  | k + 1, n => toBytesBE k (n / 256) ++ [n % 256]

/-- SHA-256 message padding: a `0x80` byte, zeros to 56 mod 64, then the
bit length as 8 big-endian bytes. -/
def pad (msg : List Nat) : List Nat :=
  msg ++ [128] ++ List.replicate ((119 - msg.length % 64) % 64) 0 ++
    toBytesBE 8 (msg.length * 8)

/-- Split a list whose length is a multiple of 64 into 64-byte chunks. -/
def chunksAux : Nat → List Nat → List (List Nat)
  | 0, _ => []
  | n + 1, l => l.take 64 :: chunksAux n (l.drop 64)

def chunksOf64 (l : List Nat) : List (List Nat) := chunksAux (l.length / 64) l

/-- The sixteen lowercase hexadecimal digit characters. -/
def hexDigitChars : List Char := "0123456789abcdef".data

def hexChar (n : Nat) : Char := hexDigitChars.getD n 'f'

/-- The low `k` hex digits of `n`, most significant first. -/
def hexDigits : Nat → Nat → List Char
  | 0, _ => []
  | k + 1, n => hexDigits k (n / 16) ++ [hexChar (n % 16)]

/-- SHA-256 of a byte list, returned as the 64-character lowercase hex digest,
modelling `hashlib.sha256(bytes).hexdigest()`. -/
def sha256hex (msg : List Nat) : String :=
  let st := (chunksOf64 (pad msg)).foldl compress initH
  String.mk (hexDigits 8 st.a ++ hexDigits 8 st.b ++ hexDigits 8 st.c ++
             hexDigits 8 st.d ++ hexDigits 8 st.e ++ hexDigits 8 st.f ++
             hexDigits 8 st.g ++ hexDigits 8 st.h)

/-- UTF-8 encoding of one code point, as byte values. -/
def charUtf8 (c : Nat) : List Nat :=
  if c < 128 then [c]
  else if c < 2048 then [192 + c / 64, 128 + c % 64]
  else if c < 65536 then [224 + c / 4096, 128 + c / 64 % 64, 128 + c % 64]
  else [240 + c / 262144, 128 + c / 4096 % 64, 128 + c / 64 % 64, 128 + c % 64]

/-- UTF-8 encoding of a string, modelling Python's `str.encode()`. -/
def strBytes (s : String) : List Nat :=
  s.data.foldr (fun c acc => charUtf8 c.toNat ++ acc) []

/-- Sanity check of the SHA-256 model against the standard test vector for
`"abc"`. -/
theorem sha256_vector_abc :
    sha256hex (strBytes "abc") =
      "ba7816bf8f01cfea414140de5dae2223b00361a396177a9cb410ff61f20015ad" := by
  decide

/-- Sanity check of the SHA-256 model against the standard test vector for the
empty message. -/
theorem sha256_vector_empty :
    sha256hex [] =
      "e3b0c44298fc1c149afbf4c8996fb92427ae41e4649b934ca495991b7852b855" := by
  decide

/-! ### The data model: `Record`, `Block`, `PyChain` -/

/-- The `Record` dataclass: user-entered transfer data.  The Streamlit front
end feeds all three fields from text inputs, so `amount` is free-form text. -/
structure Record where
  sender : String
  receiver : String
  amount : String
deriving DecidableEq

/-- Python's `str()` of a `Record` dataclass instance, as produced by the
generated dataclass `__repr__` when every field holds a string. -/
def Record.str (r : Record) : String :=
  "Record(sender=\x27" ++ r.sender ++ "\x27, receiver=\x27" ++ r.receiver ++
    "\x27, amount=\x27" ++ r.amount ++ "\x27)"

/-- The `Block` dataclass.  The `record` field stores the textual
serialization `str(record)` of the payload: `hash_block` only ever consumes
`str(self.record)`, and the genesis path passes the raw string `"Genesis"`
where the annotation says `Record`, so the payload is kept as text. -/
structure Block where
  record : String
  creator_id : Int
  prev_hash : String := "0"
  timestamp : String
  nonce : Nat := 0
deriving DecidableEq

/-- `Block.hash_block`: feed `str(record)`, `str(creator_id)`,
`str(timestamp)`, `str(prev_hash)`, `str(nonce)` (in that order) into one
SHA-256 context and return the hex digest.  Sequential `sha.update` calls
hash the concatenation of the byte strings. -/
def Block.hash_block (b : Block) : String :=
  sha256hex (strBytes b.record ++ strBytes (toString b.creator_id) ++
             strBytes b.timestamp ++ strBytes b.prev_hash ++
             strBytes (toString b.nonce))

/-- Construction of a `Block` without an explicit `timestamp` argument.
Python evaluates the field default `datetime.datetime.utcnow().strftime("%H:%M:%S")`
once, when the class body is executed at module import, so every such block
receives the import-time clock value `importTime`.  The wall-clock value
`constructionTime` at the moment of construction is passed to the model to
make the claim about it statable, but the code never reads the clock at
construction, so it is unused. -/
def mkBlockDefault (importTime constructionTime : String) (record : String)
    (creator_id : Int) (prev_hash : String := "0") : Block :=
  { record := record, creator_id := creator_id, prev_hash := prev_hash,
    timestamp := importTime, nonce := 0 }

/-- The `PyChain` dataclass: the block list plus the difficulty parameter
(default 4). -/
structure PyChain where
  chain : List Block
  difficulty : Nat := 4
deriving DecidableEq

/-- `"0" * difficulty`: the required hash target. -/
def numOfZeros (difficulty : Nat) : String :=
  String.mk (List.replicate difficulty '0')

/-- Python's `s.startswith(p)` on strings: `p` is a prefix of the character
sequence of `s`. -/
def pyStartswith (s p : String) : Bool :=
  p.data.isPrefixOf s.data

/-- The `while not calculated_hash.startswith(num_of_zeros)` loop of
`proof_of_work`: test the current hash; on failure increment the nonce and
retry.  `fuel` bounds the number of increments, modelling the unbounded
Python loop; `none` means the loop was still running after `fuel`
increments. -/
def powLoop (num_of_zeros : String) : Nat → Block → Option Block
  | 0, block =>
    if pyStartswith block.hash_block num_of_zeros then some block else none
  | fuel + 1, block =>
    if pyStartswith block.hash_block num_of_zeros then some block
    else powLoop num_of_zeros fuel { block with nonce := block.nonce + 1 }

/-- `PyChain.proof_of_work`: compute the target `"0" * self.difficulty` once,
then search nonces upward from the candidate's current nonce. -/
def PyChain.proof_of_work (c : PyChain) (fuel : Nat) (block : Block) : Option Block :=
  powLoop (numOfZeros c.difficulty) fuel block

/-- `PyChain.add_block`: mine the candidate, then append it to the chain.
No check relates the candidate's `prev_hash` to the current tail. -/
def PyChain.add_block (c : PyChain) (fuel : Nat) (candidate_block : Block) :
    Option PyChain :=
  match c.proof_of_work fuel candidate_block with
  | none => none
  | some block => some { c with chain := c.chain ++ [block] }

/-- The `for block in self.chain[1:]` loop of `is_valid`, carrying the
running hash `block_hash` of the previous block. -/
def isValidLoop : String → List Block → Bool
  | _, [] => true
  | block_hash, block :: rest =>
    if block_hash = block.prev_hash then isValidLoop block.hash_block rest
    else false

/-- `PyChain.is_valid`: hash `self.chain[0]`, then walk `self.chain[1:]`
comparing each stored `prev_hash` with the recomputed hash of its
predecessor.  On an empty chain the `self.chain[0]` access raises
`IndexError`, modelled by `none`. -/
def PyChain.is_valid (c : PyChain) : Option Bool :=
  match c.chain with
  | [] => none
  | b0 :: rest => some (isValidLoop b0.hash_block rest)

/-- The `setup` function: a fresh chain holding the single genesis block
`Block("Genesis", 0)`, with the default difficulty 4.  `importTime` is the
module-import-time clock value used as the timestamp default. -/
def setup (importTime : String) : PyChain :=
  { chain := [{ record := "Genesis", creator_id := 0, prev_hash := "0",
                timestamp := importTime, nonce := 0 }],
    difficulty := 4 }

/-- The sidebar assignment `pychain.difficulty = difficulty`. -/
def setDifficulty (c : PyChain) (difficulty : Nat) : PyChain :=
  { c with difficulty := difficulty }

/-- Sanity check: the model's genesis-block hash (with import time
`"00:00:00"`) matches the digest computed by CPython's hashlib on the same
serialized fields. -/
theorem genesis_hash_value :
    (Block.mk "Genesis" 0 "0" "00:00:00" 0).hash_block =
      "d4697d5a828b04232efefe055f064ba8b66a099f1705d31a9d09b56b657dd8a4" := by
  decide

/-! ### Helper lemmas -/

/-- Full characterization of a successful `powLoop` run: the returned block
satisfies the target, differs from the candidate only in the nonce, its nonce
is at least the candidate's, and every skipped nonce fails the target. -/
lemma powLoop_some_spec (z : String) :
    ∀ (fuel : Nat) (b b2 : Block), powLoop z fuel b = some b2 →
      pyStartswith b2.hash_block z = true ∧
      b2.record = b.record ∧ b2.creator_id = b.creator_id ∧
      b2.prev_hash = b.prev_hash ∧ b2.timestamp = b.timestamp ∧
      b.nonce ≤ b2.nonce ∧
      ∀ m, b.nonce ≤ m → m < b2.nonce →
        pyStartswith (Block.hash_block { b with nonce := m }) z = false := by
  intro fuel
  induction fuel with
  | zero =>
    intro b b2 h
    rw [powLoop] at h
    by_cases hc : pyStartswith b.hash_block z = true
    · simp only [hc, if_true, Option.some.injEq] at h
      subst h
      exact ⟨hc, rfl, rfl, rfl, rfl, Nat.le_refl _, fun m h1 h2 => absurd h2 (by omega)⟩
    · simp only [hc, if_false] at h
      simp at h
  | succ fuel ih =>
    intro b b2 h
    rw [powLoop] at h
    by_cases hc : pyStartswith b.hash_block z = true
    · simp only [hc, if_true, Option.some.injEq] at h
      subst h
      exact ⟨hc, rfl, rfl, rfl, rfl, Nat.le_refl _, fun m h1 h2 => absurd h2 (by omega)⟩
    · simp only [hc, if_false] at h
      obtain ⟨h1, h2, h3, h4, h5, h6, h7⟩ := ih { b with nonce := b.nonce + 1 } b2 h
      refine ⟨h1, h2, h3, h4, h5, by simp at h6; omega, ?_⟩
      intro m hm1 hm2
      rcases Nat.eq_or_lt_of_le hm1 with heq | hlt
      · subst heq
        have hb : ({ b with nonce := b.nonce } : Block) = b := rfl
        rw [hb]
        exact Bool.not_eq_true _ ▸ (by simpa using hc)
      · exact h7 m (by simpa using hlt) hm2

/-- A successful `proof_of_work` differs from the candidate only in the
nonce field. -/
lemma powLoop_only_nonce (z : String) (fuel : Nat) (b b2 : Block)
    (h : powLoop z fuel b = some b2) : b2 = { b with nonce := b2.nonce } := by
  obtain ⟨_, h2, h3, h4, h5, _, _⟩ := powLoop_some_spec z fuel b b2 h
  cases b; cases b2
  simp_all

/-- Adjacent-link relation between blocks: the recomputed hash of the
predecessor equals the stored `prev_hash` of the successor. -/
def hashLink (a b : Block) : Prop := a.hash_block = b.prev_hash

/-- The validation loop, seeded with the hash of `b0`, returns `true` exactly
when every adjacent pair of `b0 :: l` is hash-linked. -/
lemma isValidLoop_chain : ∀ (l : List Block) (b0 : Block),
    (isValidLoop b0.hash_block l = true ↔ List.Chain' hashLink (b0 :: l)) := by
  intro l
  induction l with
  | nil => intro b0; simp [isValidLoop]
  | cons b1 rest ih =>
    intro b0
    by_cases hc : b0.hash_block = b1.prev_hash
    · simp [isValidLoop, hc, List.chain'_cons, hashLink, ih b1]
    · simp [isValidLoop, hc, List.chain'_cons, hashLink]

/-- The hash of the last block of `l`, or the seed value when `l` is empty. -/
def lastHash (block_hash : String) (l : List Block) : String :=
  match l.getLast? with
  | some b => b.hash_block
  | none => block_hash

lemma lastHash_nil (bh : String) : lastHash bh [] = bh := rfl

lemma lastHash_cons (bh : String) (y : Block) (l : List Block) :
    lastHash bh (y :: l) = lastHash y.hash_block l := by
  cases l with
  | nil => simp [lastHash]
  | cons z l3 =>
    cases hq : (z :: l3).getLast? with
    | none => rw [List.getLast?_eq_none_iff] at hq; exact absurd hq (by simp)
    | some w => simp [lastHash, List.getLast?_cons_cons, hq]

/-- Appending a block whose `prev_hash` disagrees with the hash of the
current last block makes the validation loop return `false`. -/
lemma isValidLoop_append_false : ∀ (l : List Block) (bh : String) (x : Block),
    x.prev_hash ≠ lastHash bh l → isValidLoop bh (l ++ [x]) = false := by
  intro l
  induction l with
  | nil =>
    intro bh x hne
    rw [lastHash_nil] at hne
    simp only [List.nil_append, isValidLoop]
    have hcc : ¬(bh = x.prev_hash) := fun hh => hne hh.symm
    simp [hcc]
  | cons y l2 ih =>
    intro bh x hne
    rw [lastHash_cons] at hne
    simp only [List.cons_append, isValidLoop]
    by_cases hc : bh = y.prev_hash
    · simp only [hc, if_true]
      exact ih y.hash_block x hne
    · simp [hc]

/-- `lastHash` computes the recomputed hash of `getLast?`. -/
lemma lastHash_eq_getLast (l : List Block) (bh : String) (tail : Block)
    (h : l.getLast? = some tail) : lastHash bh l = tail.hash_block := by
  simp [lastHash, h]

lemma hexDigits_length (k : Nat) : ∀ n : Nat, (hexDigits k n).length = k := by
  induction k with
  | zero => intro n; rfl
  | succ k ih => intro n; simp [hexDigits, ih]

lemma hexChar_mem (n : Nat) : hexChar n ∈ hexDigitChars := by
  unfold hexChar List.getD
  cases hq : hexDigitChars.get? n with
  | none => simp [Option.getD]; decide
  | some ch => simpa [Option.getD, hq] using List.get?_mem hq

lemma hexDigits_mem (k : Nat) : ∀ (n : Nat), ∀ ch ∈ hexDigits k n, ch ∈ hexDigitChars := by
  induction k with
  | zero => intro n ch h; simp [hexDigits] at h
  | succ k ih =>
    intro n ch h
    simp only [hexDigits, List.mem_append, List.mem_singleton] at h
    rcases h with h | h
    · exact ih _ ch h
    · subst h; exact hexChar_mem _

/-- Every SHA-256 hex digest has exactly 64 characters. -/
lemma sha256hex_length (msg : List Nat) : (sha256hex msg).length = 64 := by
  simp [sha256hex, String.length, hexDigits_length]

/-- Every character of a SHA-256 hex digest is a lowercase hex digit. -/
lemma sha256hex_chars (msg : List Nat) :
    ∀ ch ∈ (sha256hex msg).data, ch ∈ hexDigitChars := by
  intro ch h
  simp only [sha256hex, List.mem_append] at h
  rcases h with ((((((h | h) | h) | h) | h) | h) | h) | h <;>
    exact hexDigits_mem _ _ ch h

/-! ### Concrete fixtures used by witnesses -/

/-- The genesis block as `setup` builds it, with import time `"00:00:00"`. -/
def gB : Block :=
  { record := "Genesis", creator_id := 0, prev_hash := "0",
    timestamp := "00:00:00", nonce := 0 }

/-- The hex digest of `gB`, computed independently by CPython's hashlib and
confirmed by `genesis_hash_value`. -/
def gHash : String :=
  "d4697d5a828b04232efefe055f064ba8b66a099f1705d31a9d09b56b657dd8a4"

/-- A difficulty-1 chain holding only the genesis block. -/
def pcD1 : PyChain := { chain := [gB], difficulty := 1 }

/-- A correctly linked candidate for mining on `pcD1`. -/
def cand2 : Block :=
  { record := "blk", creator_id := 42, prev_hash := gHash,
    timestamp := "01:02:03", nonce := 0 }

/-- The mined form of `cand2`: nonce 1 wins at difficulty 1. -/
def mined2 : Block := { cand2 with nonce := 1 }

/-- A difficulty-1 chain for the minimality witness. -/
def pc6 : PyChain := { chain := [gB], difficulty := 1 }

/-- A candidate whose nonce search starts at 5. -/
def cand6 : Block :=
  { record := "c16", creator_id := 7, prev_hash := "0",
    timestamp := "10:20:30", nonce := 5 }

/-- The mined form of `cand6`: nonce 8 is the first at or above 5 winning at
difficulty 1. -/
def mined6 : Block := { cand6 with nonce := 8 }

/-- A difficulty-0 chain holding only the genesis block (difficulty 0 makes
mining in witnesses immediate). -/
def pc0 : PyChain := { chain := [gB], difficulty := 0 }

/-- A candidate whose `prev_hash` is deliberately wrong. -/
def candBad : Block :=
  { record := "bad", creator_id := 9, prev_hash := "wrong",
    timestamp := "02:03:04", nonce := 0 }

/-- The chain `pc0` after appending `candBad`. -/
def pc0Bad : PyChain := { chain := [gB, candBad], difficulty := 0 }

/-- A block whose stored `prev_hash` (`"x"`) does not match the genesis
hash. -/
def badB : Block :=
  { record := "b", creator_id := 1, prev_hash := "x",
    timestamp := "03:04:05", nonce := 0 }

/-- A two-block chain with a broken link. -/
def badPC : PyChain := { chain := [gB, badB], difficulty := 4 }

/-! ### Claim theorems -/

/-- C7: a freshly constructed chain contains exactly one block, the genesis
block, whose record is the literal text `"Genesis"`, whose creator id is 0,
and whose `prev_hash` is `"0"`. -/
theorem setup_genesis (importTime : String) :
    (setup importTime).chain.length = 1 ∧
    ∃ g, (setup importTime).chain = [g] ∧ g.record = "Genesis" ∧
      g.creator_id = 0 ∧ g.prev_hash = "0" :=
  ⟨rfl, { record := "Genesis", creator_id := 0, prev_hash := "0",
          timestamp := importTime, nonce := 0 }, rfl, rfl, rfl, rfl⟩

/-- C8: setting the difficulty is prospective only: the block sequence (hence
every already-appended block, its nonce and its hash) is untouched, and only
the difficulty consumed by subsequent `proof_of_work` calls changes. -/
theorem set_difficulty_prospective (c : PyChain) (d : Nat) :
    (setDifficulty c d).chain = c.chain ∧
    (setDifficulty c d).difficulty = d ∧
    (∀ fuel b, (setDifficulty c d).proof_of_work fuel b =
      powLoop (numOfZeros d) fuel b) ∧
    (∀ fuel b, c.proof_of_work fuel b =
      powLoop (numOfZeros c.difficulty) fuel b) :=
  ⟨rfl, rfl, fun _ _ => rfl, fun _ _ => rfl⟩

/-- C9: on a chain whose sequence holds exactly one block, `is_valid` returns
true whatever that block's field values are: the first block's own
`prev_hash` is never compared against anything. -/
theorem single_block_valid (c : PyChain) (b : Block) (h : c.chain = [b]) :
    c.is_valid = some true := by
  simp [PyChain.is_valid, h, isValidLoop]

/-- Witness for C9 at the freshly constructed chain. -/
theorem single_block_valid_witness : (setup "00:00:00").is_valid = some true :=
  single_block_valid (setup "00:00:00") gB rfl

/-- C10: `is_valid` reads `chain[0]` unconditionally, so it is total exactly
on non-empty chains (`none` models the `IndexError`); `setup` chains are
non-empty and `add_block` preserves non-emptiness, so the access is
unreachable on chains built through them. -/
theorem is_valid_partiality (c : PyChain) :
    (c.is_valid = none ↔ c.chain = []) ∧
    (∀ t : String, (setup t).chain ≠ []) ∧
    (∀ fuel cand c2, c.add_block fuel cand = some c2 → c2.chain ≠ []) := by
  refine ⟨?_, ?_, ?_⟩
  · cases h : c.chain with
    | nil => simp [PyChain.is_valid, h]
    | cons b0 rest => simp [PyChain.is_valid, h]
  · intro t
    simp [setup]
  · intro fuel cand c2 h
    unfold PyChain.add_block at h
    cases hp : c.proof_of_work fuel cand with
    | none => rw [hp] at h; simp at h
    | some blk =>
      rw [hp] at h
      simp only [Option.some.injEq] at h
      subst h
      simp

/-- Witness for C10: a concrete `add_block` success yields a non-empty
chain. -/
theorem is_valid_partiality_witness :
    pc0.add_block 0 candBad = some pc0Bad ∧ pc0Bad.chain ≠ [] := by
  have h : pc0.add_block 0 candBad = some pc0Bad := by decide
  exact ⟨h, (is_valid_partiality pc0).2.2 0 candBad pc0Bad h⟩

/-- C5 (code behaviour): the `timestamp` default
`datetime.datetime.utcnow().strftime("%H:%M:%S")` is evaluated once when the
class body runs at module import, so every block constructed without an
explicit timestamp stores the import-time value; two such blocks constructed
at different wall-clock seconds still carry the identical timestamp. -/
theorem timestamp_default_shared :
    (∀ iT cT r cid p, (mkBlockDefault iT cT r cid p).timestamp = iT) ∧
    (mkBlockDefault "12:00:00" "01:02:03" "a" 1 "0").timestamp =
      (mkBlockDefault "12:00:00" "01:02:04" "b" 2 "0").timestamp ∧
    ("01:02:03" : String) ≠ "01:02:04" := by
  refine ⟨fun _ _ _ _ _ => rfl, rfl, by decide⟩

/-- C2: when `proof_of_work` returns, the returned block's recomputed hash
begins with `difficulty` `'0'` characters (the chain's difficulty when mining
started), and the returned block is the candidate with only its nonce
updated. -/
theorem proof_of_work_postcondition (c : PyChain) (fuel : Nat) (b b2 : Block)
    (h : c.proof_of_work fuel b = some b2) :
    pyStartswith b2.hash_block (numOfZeros c.difficulty) = true ∧
    b2 = { b with nonce := b2.nonce } :=
  ⟨(powLoop_some_spec _ fuel b b2 h).1, powLoop_only_nonce _ fuel b b2 h⟩

/-- Witness for C2: mining `cand2` on the difficulty-1 chain succeeds at
nonce 1 and the digest indeed begins with one `'0'`. -/
theorem proof_of_work_postcondition_witness :
    pcD1.proof_of_work 5 cand2 = some mined2 ∧
    pyStartswith mined2.hash_block (numOfZeros pcD1.difficulty) = true ∧
    mined2 = { cand2 with nonce := mined2.nonce } := by
  have h : pcD1.proof_of_work 5 cand2 = some mined2 := by decide
  exact ⟨h, (proof_of_work_postcondition pcD1 5 cand2 mined2 h).1,
         (proof_of_work_postcondition pcD1 5 cand2 mined2 h).2⟩

/-- C6: the block returned by `proof_of_work` carries the smallest nonce at
or above the candidate's initial nonce whose hash meets the target (the loop
is a sequential scan over increasing nonces), and no other field changes. -/
theorem proof_of_work_minimal (c : PyChain) (fuel : Nat) (b b2 : Block)
    (h : c.proof_of_work fuel b = some b2) :
    b2 = { b with nonce := b2.nonce } ∧
    b.nonce ≤ b2.nonce ∧
    pyStartswith b2.hash_block (numOfZeros c.difficulty) = true ∧
    (∀ m, b.nonce ≤ m → m < b2.nonce →
      pyStartswith (Block.hash_block { b with nonce := m })
        (numOfZeros c.difficulty) = false) := by
  obtain ⟨h1, _, _, _, _, h6, h7⟩ := powLoop_some_spec _ fuel b b2 h
  exact ⟨powLoop_only_nonce _ fuel b b2 h, h6, h1, h7⟩

/-- Witness for C6: mining `cand6` (initial nonce 5) wins first at nonce 8,
and the skipped nonce 7 indeed fails the target. -/
theorem proof_of_work_minimal_witness :
    pc6.proof_of_work 50 cand6 = some mined6 ∧
    mined6 = { cand6 with nonce := mined6.nonce } ∧
    cand6.nonce ≤ mined6.nonce ∧
    pyStartswith mined6.hash_block (numOfZeros pc6.difficulty) = true ∧
    pyStartswith (Block.hash_block { cand6 with nonce := 7 })
      (numOfZeros pc6.difficulty) = false := by
  have h : pc6.proof_of_work 50 cand6 = some mined6 := by decide
  obtain ⟨h1, h2, h3, h4⟩ := proof_of_work_minimal pc6 50 cand6 mined6 h
  exact ⟨h, h1, h2, h3, h4 7 (by decide) (by decide)⟩

/-- C3: `add_block` performs no `prev_hash` check: whenever mining returns,
the mined candidate is appended at the tail and the length grows by exactly
one, even when the candidate's `prev_hash` differs from the recomputed hash
of the current tail block — in which case a subsequent `is_valid` reports
`false`. -/
theorem add_block_unchecked (c : PyChain) (fuel : Nat) (cand : Block)
    (c2 : PyChain) (h : c.add_block fuel cand = some c2) :
    c2.chain.length = c.chain.length + 1 ∧
    (∀ tail, c.chain.getLast? = some tail → cand.prev_hash ≠ tail.hash_block →
      c2.is_valid = some false) := by
  unfold PyChain.add_block at h
  cases hp : c.proof_of_work fuel cand with
  | none => rw [hp] at h; simp at h
  | some blk =>
    rw [hp] at h
    simp only [Option.some.injEq] at h
    subst h
    refine ⟨by simp, ?_⟩
    intro tail hlast hne
    have hprev : blk.prev_hash = cand.prev_hash :=
      (powLoop_some_spec _ fuel cand blk hp).2.2.2.1
    cases hc : c.chain with
    | nil => rw [hc] at hlast; simp at hlast
    | cons b0 rest =>
      rw [hc] at hlast
      have h1 : lastHash b0.hash_block (b0 :: rest) = tail.hash_block :=
        lastHash_eq_getLast _ _ _ hlast
      have h2 : lastHash b0.hash_block (b0 :: rest) =
          lastHash b0.hash_block rest := lastHash_cons _ _ _
      have hne2 : blk.prev_hash ≠ lastHash b0.hash_block rest := by
        rw [← h2, h1, hprev]
        exact hne
      have hloop := isValidLoop_append_false rest b0.hash_block blk hne2
      simp [PyChain.is_valid, hc, List.cons_append, hloop]

/-- Witness for C3: appending a candidate whose `prev_hash` is the junk value
`"wrong"` still succeeds and grows the chain, after which `is_valid` is
`false`. -/
theorem add_block_unchecked_witness :
    pc0.add_block 0 candBad = some pc0Bad ∧
    pc0Bad.chain.length = pc0.chain.length + 1 ∧
    pc0Bad.is_valid = some false := by
  have h : pc0.add_block 0 candBad = some pc0Bad := by decide
  obtain ⟨h1, h2⟩ := add_block_unchecked pc0 0 candBad pc0Bad h
  exact ⟨h, h1, h2 gB (by decide) (by decide)⟩

/-- The specification's statement of chain validity: for every position
`i ≥ 1`, the hash of `chain[i-1]`, recomputed at validation time, equals the
stored `prev_hash` of `chain[i]`. -/
def linksIntact (c : PyChain) : Prop :=
  ∀ i, ∀ hi : i + 1 < c.chain.length,
    (c.chain.get ⟨i, Nat.lt_of_succ_lt hi⟩).hash_block =
      (c.chain.get ⟨i + 1, hi⟩).prev_hash

/-- C1: on every (non-empty) chain, `is_valid` returns true exactly when
every block's stored `prev_hash` matches the freshly recomputed hash of its
predecessor, and false exactly when some link fails. -/
theorem is_valid_iff_links (c : PyChain) (b0 : Block) (rest : List Block)
    (h : c.chain = b0 :: rest) :
    (c.is_valid = some true ↔ linksIntact c) ∧
    (c.is_valid = some false ↔ ¬ linksIntact c) := by
  have hv : c.is_valid = some (isValidLoop b0.hash_block rest) := by
    simp [PyChain.is_valid, h]
  have hch : (isValidLoop b0.hash_block rest = true) ↔
      List.Chain' hashLink c.chain := by
    rw [h]; exact isValidLoop_chain rest b0
  have hidx : List.Chain' hashLink c.chain ↔ linksIntact c := by
    rw [List.chain'_iff_get]
    constructor
    · intro hf i hi
      exact hf i (by omega)
    · intro hf i hi
      exact hf i (by omega)
  constructor
  · rw [hv]
    simp only [Option.some.injEq]
    exact hch.trans hidx
  · rw [hv]
    simp only [Option.some.injEq]
    have hb : (isValidLoop b0.hash_block rest = false) ↔
        ¬(isValidLoop b0.hash_block rest = true) := by
      cases isValidLoop b0.hash_block rest <;> simp
    exact hb.trans (not_congr (hch.trans hidx))

/-- Witness for C1: on the two-block chain whose second block stores the junk
`prev_hash` `"x"`, the link condition fails at `i = 0` and `is_valid` is
`false`. -/
theorem is_valid_iff_links_witness : badPC.is_valid = some false := by
  have h := is_valid_iff_links badPC gB [badB] rfl
  refine h.2.mpr ?_
  intro hall
  have h0 := hall 0 (by decide)
  exact absurd h0 (by decide)

/-- C4: `hash_block` is the SHA-256 hex digest of the five serialized fields
fed into one hash context in the order record, creator id, timestamp,
previous hash, nonce; the digest has 64 hex characters, and the function is a
pure function of the field values (equal fields give the identical digest;
the block itself is untouched, the embedding being functional). -/
theorem hash_block_spec (b : Block) :
    b.hash_block =
      sha256hex (strBytes b.record ++ strBytes (toString b.creator_id) ++
                 strBytes b.timestamp ++ strBytes b.prev_hash ++
                 strBytes (toString b.nonce)) ∧
    b.hash_block.length = 64 ∧
    (∀ c2 ∈ b.hash_block.data, c2 ∈ hexDigitChars) ∧
    (∀ b2 : Block, b2.record = b.record → b2.creator_id = b.creator_id →
      b2.timestamp = b.timestamp → b2.prev_hash = b.prev_hash →
      b2.nonce = b.nonce → b2.hash_block = b.hash_block) := by
  refine ⟨rfl, sha256hex_length _, sha256hex_chars _, ?_⟩
  intro b2 h1 h2 h3 h4 h5
  cases b; cases b2
  simp_all [Block.hash_block]

/-- Witness for C4: the genesis block's digest has 64 characters, and a
field-identical copy of the genesis block hashes to the same digest. -/
theorem hash_block_spec_witness :
    gB.hash_block.length = 64 ∧
    (mkBlockDefault "00:00:00" "ignored" "Genesis" 0 "0").hash_block =
      gB.hash_block := by
  refine ⟨(hash_block_spec gB).2.1, ?_⟩
  exact (hash_block_spec gB).2.2.2
    (mkBlockDefault "00:00:00" "ignored" "Genesis" 0 "0") rfl rfl rfl rfl rfl

end PySpec
